import Mathlib

set_option maxRecDepth 100000

namespace PromptVault

/- ===== Byte and 32-bit word helpers =====
   Bytes are Nat values below 256; 32-bit words are Nat values below 2^32,
   reduced explicitly with w32 where overflow matters. -/

/-- Reduce a Nat to a 32-bit word. -/
def w32 (n : Nat) : Nat := n % 4294967296

/-- Right rotation of a 32-bit word by n bits. -/
def rotr32 (n x : Nat) : Nat := ((x >>> n) ||| (x <<< (32 - n))) % 4294967296

/-- Big-endian byte encoding of a Nat with a fixed width in bytes. -/
def natToBytesBE : Nat → Nat → List Nat
  | 0, _ => []
  | w + 1, n => natToBytesBE w (n / 256) ++ [n % 256]

/-- Big-endian byte decoding of a byte list into a Nat. -/
def bytesToNatBE (l : List Nat) : Nat := l.foldl (fun acc b => acc * 256 + b) 0

/-- Split a list into chunks of n elements; fuel bounds the recursion and any
fuel of at least l.length makes the result total on l. -/
def chunksOf : Nat → Nat → List Nat → List (List Nat)
  | 0, _, _ => []
  | fuel + 1, n, l => if l = [] then [] else l.take n :: chunksOf fuel n (l.drop n)

/-- Byte sequence of a Go string: Go strings are UTF-8 encoded byte sequences,
and a byte-slice conversion yields exactly these bytes. -/
def strBytes (s : String) : List Nat :=
  (String.toUTF8 s).data.toList.map UInt8.toNat

/- ===== SHA-256 (FIPS 180-4), as used by crypto/sha256 Sum256 ===== -/

/-- SHA-256 round constants, in decimal. -/
def sha256K : List Nat :=
  [1116352408, 1899447441, 3049323471, 3921009573, 961987163, 1508970993,
   2453635748, 2870763221, 3624381080, 310598401, 607225278, 1426881987,
   1925078388, 2162078206, 2614888103, 3248222580, 3835390401, 4022224774,
   264347078, 604807628, 770255983, 1249150122, 1555081692, 1996064986,
   2554220882, 2821834349, 2952996808, 3210313671, 3336571891, 3584528711,
   113926993, 338241895, 666307205, 773529912, 1294757372, 1396182291,
   1695183700, 1986661051, 2177026350, 2456956037, 2730485921, 2820302411,
   3259730800, 3345764771, 3516065817, 3600352804, 4094571909, 275423344,
   430227734, 506948616, 659060556, 883997877, 958139571, 1322822218,
   1537002063, 1747873779, 1955562222, 2024104815, 2227730452, 2361852424,
   2428436474, 2756734187, 3204031479, 3329325298]

/-- SHA-256 initial hash value, in decimal. -/
def sha256H0 : List Nat :=
  [1779033703, 3144134277, 1013904242, 2773480762, 1359893119, 2600822924,
   528734635, 1541459225]

/-- SHA-256 big sigma 0. -/
def bsig0 (x : Nat) : Nat := rotr32 2 x ^^^ rotr32 13 x ^^^ rotr32 22 x

/-- SHA-256 big sigma 1. -/
def bsig1 (x : Nat) : Nat := rotr32 6 x ^^^ rotr32 11 x ^^^ rotr32 25 x

/-- SHA-256 small sigma 0. -/
def ssig0 (x : Nat) : Nat := rotr32 7 x ^^^ rotr32 18 x ^^^ (x >>> 3)

/-- SHA-256 small sigma 1. -/
def ssig1 (x : Nat) : Nat := rotr32 17 x ^^^ rotr32 19 x ^^^ (x >>> 10)

/-- SHA-256 choice function. -/
def sha256Ch (x y z : Nat) : Nat := (x &&& y) ^^^ ((x ^^^ 0xffffffff) &&& z)

/-- SHA-256 majority function. -/
def sha256Maj (x y z : Nat) : Nat := (x &&& y) ^^^ (x &&& z) ^^^ (y &&& z)

/-- Extend the 16 message-schedule words of a chunk to 64 words. -/
def sha256Extend : Nat → List Nat → List Nat
  | 0, ws => ws
  | fuel + 1, ws =>
    if ws.length ≥ 64 then ws
    else
      sha256Extend fuel (ws ++ [w32 (ssig1 (ws.getD (ws.length - 2) 0) + ws.getD (ws.length - 7) 0 +
        ssig0 (ws.getD (ws.length - 15) 0) + ws.getD (ws.length - 16) 0)])

/-- One SHA-256 round on the eight working registers. -/
def sha256Round (st : List Nat) (kw : Nat × Nat) : List Nat :=
  match st with
  | [a, b, c, d, e, f, g, h] =>
    let t1 := w32 (h + bsig1 e + sha256Ch e f g + kw.1 + kw.2)
    let t2 := w32 (bsig0 a + sha256Maj a b c)
    [w32 (t1 + t2), a, b, c, w32 (d + t1), e, f, g]
  | _ => st

/-- SHA-256 compression of one 64-byte chunk into the hash state. -/
def sha256Compress (H : List Nat) (chunk : List Nat) : List Nat :=
  let ws := sha256Extend 48 ((chunksOf chunk.length 4 chunk).map bytesToNatBE)
  let st := (sha256K.zip ws).foldl sha256Round H
  List.zipWith (fun x y => w32 (x + y)) H st

/-- SHA-256 padding: append 0x80, zero bytes to 56 mod 64, then the bit length
as a 64-bit big-endian integer. -/
def sha256Pad (msg : List Nat) : List Nat :=
  msg ++ [0x80] ++ List.replicate ((119 - msg.length % 64) % 64) 0 ++
    natToBytesBE 8 (msg.length * 8)

/-- SHA-256 digest (32 bytes) of a byte sequence. -/
def sha256 (msg : List Nat) : List Nat :=
  let padded := sha256Pad msg
  ((chunksOf padded.length 64 padded).foldl sha256Compress sha256H0).flatMap (natToBytesBE 4)

/- ===== Hex encoding and decoding (encoding/hex) ===== -/

/-- Lowercase hex digit for a value below 16, as in the hex package table. -/
def hexDigitChar (n : Nat) : Char := "0123456789abcdef".data.getD n '0'

/-- Lowercase hex encoding of a byte sequence, as hex EncodeToString. -/
def hexEncode (l : List Nat) : String :=
  ⟨l.flatMap (fun b => [hexDigitChar (b / 16), hexDigitChar (b % 16)])⟩

/-- Lowercase hex SHA-256 digest of a byte sequence. -/
def sha256hex (l : List Nat) : String := hexEncode (sha256 l)

/-- Value of one hex digit character, accepting 0-9, a-f and A-F,
as the hex package fromHexChar. -/
def hexCharVal (c : Char) : Option Nat :=
  if '0' ≤ c ∧ c ≤ '9' then some (c.toNat - 48)
  else if 'a' ≤ c ∧ c ≤ 'f' then some (c.toNat - 87)
  else if 'A' ≤ c ∧ c ≤ 'F' then some (c.toNat - 55)
  else none

/-- Hex decoding of a character list, two digits per byte; fails on an odd
number of digits or any non-hex character, as hex DecodeString. -/
def hexDecodeList : List Char → Option (List Nat)
  | [] => some []
  | [_] => none
  | c1 :: c2 :: rest =>
    match hexCharVal c1, hexCharVal c2, hexDecodeList rest with
    | some hi, some lo, some bs => some ((hi * 16 + lo) :: bs)
    | _, _, _ => none

/-- Hex decoding of a string, as hex DecodeString. -/
def hexDecode (s : String) : Option (List Nat) := hexDecodeList s.data

/- ===== HMAC-SHA256 (crypto/hmac with sha256) ===== -/

/-- HMAC-SHA256 of a message under a key, per RFC 2104 with a 64-byte block. -/
def hmacSha256 (key msg : List Nat) : List Nat :=
  let k0 := if key.length > 64 then sha256 key else key
  let k := k0 ++ List.replicate (64 - k0.length) 0
  let ipad := k.map (fun b => b ^^^ 0x36)
  let opad := k.map (fun b => b ^^^ 0x5c)
  sha256 (opad ++ sha256 (ipad ++ msg))

/- ===== AES-256 (FIPS 197), the block cipher under crypto/aes ===== -/

/-- Carryless multiply-and-reduce loop for GF(2^8) with the AES polynomial. -/
def gf8mulAux : Nat → Nat → Nat → Nat → Nat
  | 0, _, _, acc => acc
  | fuel + 1, a, b, acc =>
    let acc := if b % 2 = 1 then acc ^^^ a else acc
    let a := if 128 ≤ a then ((a * 2) ^^^ 0x11b) % 256 else a * 2
    gf8mulAux fuel a (b / 2) acc

/-- Multiplication in GF(2^8) modulo x^8 + x^4 + x^3 + x + 1. -/
def gf8mul (a b : Nat) : Nat := gf8mulAux 8 a b 0

/-- Multiplicative inverse in GF(2^8) computed as x^254 (0 maps to 0). -/
def gf8inv (x : Nat) : Nat :=
  let x2 := gf8mul x x
  let x4 := gf8mul x2 x2
  let x8 := gf8mul x4 x4
  let x16 := gf8mul x8 x8
  let x32 := gf8mul x16 x16
  let x64 := gf8mul x32 x32
  let x128 := gf8mul x64 x64
  gf8mul x128 (gf8mul x64 (gf8mul x32 (gf8mul x16 (gf8mul x8 (gf8mul x4 x2)))))

/-- Left rotation of an 8-bit value by n bits. -/
def rotl8 (n x : Nat) : Nat := ((x <<< n) ||| (x >>> (8 - n))) % 256

/-- The AES S-box: multiplicative inverse followed by the affine transform. -/
def sbox (b : Nat) : Nat :=
  let i := gf8inv b
  i ^^^ rotl8 1 i ^^^ rotl8 2 i ^^^ rotl8 3 i ^^^ rotl8 4 i ^^^ 0x63

/-- AES round constants for 256-bit key expansion, as 8-bit values. -/
def aesRcon : List Nat := [0x01, 0x02, 0x04, 0x08, 0x10, 0x20, 0x40]

/-- Apply the S-box to each byte of a 32-bit word. -/
def subWord (w : Nat) : Nat := bytesToNatBE ((natToBytesBE 4 w).map sbox)

/-- Rotate a 32-bit word left by one byte. -/
def rotWord (w : Nat) : Nat := ((w <<< 8) ||| (w >>> 24)) % 4294967296

/-- AES-256 key expansion step: grow the word list to 60 words (Nk = 8). -/
def aesExpandAux : Nat → List Nat → List Nat
  | 0, ws => ws
  | fuel + 1, ws =>
    if 60 ≤ ws.length then ws
    else
      let i := ws.length
      let temp := ws.getD (i - 1) 0
      let temp :=
        if i % 8 = 0 then subWord (rotWord temp) ^^^ (aesRcon.getD (i / 8 - 1) 0 <<< 24)
        else if i % 8 = 4 then subWord temp
        else temp
      aesExpandAux fuel (ws ++ [ws.getD (i - 8) 0 ^^^ temp])

/-- AES-256 key expansion of a 32-byte key into 60 round-key words. -/
def aesExpandKey (key : List Nat) : List Nat :=
  aesExpandAux 52 ((chunksOf key.length 4 key).map bytesToNatBE)

/-- Round key r as 16 bytes in state order (four big-endian words). -/
def aesRoundKey (ws : List Nat) (r : Nat) : List Nat :=
  ((ws.drop (4 * r)).take 4).flatMap (natToBytesBE 4)

/-- Index permutation of ShiftRows on the flat state (byte r + 4c is row r,
column c of the state). -/
def shiftRowsIdx (i : Nat) : Nat :=
  let r := i % 4
  let c := i / 4
  r + 4 * ((c + r) % 4)

/-- ShiftRows on the 16-byte flat state. -/
def shiftRowsL (st : List Nat) : List Nat :=
  (List.range 16).map (fun i => st.getD (shiftRowsIdx i) 0)

/-- MixColumns on one 4-byte column. -/
def mixCol (col : List Nat) : List Nat :=
  match col with
  | [a, b, c, d] =>
    [gf8mul 2 a ^^^ gf8mul 3 b ^^^ c ^^^ d,
     a ^^^ gf8mul 2 b ^^^ gf8mul 3 c ^^^ d,
     a ^^^ b ^^^ gf8mul 2 c ^^^ gf8mul 3 d,
     gf8mul 3 a ^^^ b ^^^ c ^^^ gf8mul 2 d]
  | _ => col

/-- MixColumns on the 16-byte flat state (columns are contiguous 4-byte runs). -/
def mixColumnsL (st : List Nat) : List Nat := (chunksOf st.length 4 st).flatMap mixCol

/-- AES-256 encryption of one 16-byte block. -/
def aesEncryptBlock (key block : List Nat) : List Nat :=
  let ws := aesExpandKey key
  let st0 := List.zipWith Nat.xor block (aesRoundKey ws 0)
  let st := (List.range 13).foldl
    (fun st i => List.zipWith Nat.xor (mixColumnsL (shiftRowsL (st.map sbox))) (aesRoundKey ws (i + 1))) st0
  List.zipWith Nat.xor (shiftRowsL (st.map sbox)) (aesRoundKey ws 14)

/-- AES-256 block encryption on 128-bit values. -/
def aesEncN (key : List Nat) (blk : Nat) : Nat :=
  bytesToNatBE (aesEncryptBlock key (natToBytesBE 16 blk))

/- ===== GCM (NIST SP 800-38D), as crypto/cipher NewGCM with no AAD ===== -/

/-- The GCM reduction constant R (bit-reflected x^128 + x^7 + x^2 + x + 1). -/
def gf128R : Nat := 0xe1000000000000000000000000000000

/-- One-bit-per-step multiply loop in GF(2^128), MSB of x first. -/
def gf128mulAux : Nat → Nat → Nat → Nat → Nat
  | 0, _, _, z => z
  | fuel + 1, x, v, z =>
    let z := if (x >>> 127) % 2 = 1 then z ^^^ v else z
    let v := if v % 2 = 1 then (v >>> 1) ^^^ gf128R else v >>> 1
    gf128mulAux fuel ((x <<< 1) % 340282366920938463463374607431768211456) v z

/-- Multiplication in GF(2^128) with the GCM bit order. -/
def gf128mul (x y : Nat) : Nat := gf128mulAux 128 x y 0

/-- GHASH over 128-bit blocks with hash subkey h. -/
def ghash (h : Nat) (blocks : List Nat) : Nat :=
  blocks.foldl (fun y b => gf128mul (y ^^^ b) h) 0

/-- Split bytes into 128-bit blocks, zero-padding the last partial block. -/
def gcmPadBlocks (c : List Nat) : List Nat :=
  (chunksOf c.length 16 c).map (fun blk => bytesToNatBE (blk ++ List.replicate (16 - blk.length) 0))

/-- Increment the low 32 bits of a 128-bit counter block, as GCM inc32. -/
def inc32 (x : Nat) : Nat := x / 4294967296 * 4294967296 + (x + 1) % 4294967296

/-- Iterated inc32. -/
def inc32Iter : Nat → Nat → Nat
  | 0, x => x
  | n + 1, x => inc32Iter n (inc32 x)

/-- Pre-counter block J0 for a 12-byte nonce: nonce with a 1 appended as a
32-bit big-endian word. -/
def gcmJ0 (nonce : List Nat) : Nat := bytesToNatBE (nonce ++ [0, 0, 0, 1])

/-- CTR keystream of n bytes; the first data counter is inc32 of J0. -/
def gcmKeystream (key : List Nat) (j0 : Nat) (n : Nat) : List Nat :=
  ((List.range ((n + 15) / 16)).flatMap
    (fun i => natToBytesBE 16 (aesEncN key (inc32Iter (i + 1) j0)))).take n

/-- CTR encryption and decryption: XOR data with the keystream. -/
def gcmCtr (key : List Nat) (j0 : Nat) (data : List Nat) : List Nat :=
  List.zipWith Nat.xor (gcmKeystream key j0 data.length) data

/-- GCM authentication tag over ciphertext c with empty AAD, as a 128-bit
value: E(K, J0) XOR GHASH(H, pad(c) with the length block). -/
def gcmTagN (key nonce c : List Nat) : Nat :=
  let h := aesEncN key 0
  let s := ghash h (gcmPadBlocks c ++ [c.length * 8])
  aesEncN key (gcmJ0 nonce) ^^^ s

/-- GCM Seal with no AAD: ciphertext followed by the 16-byte tag. -/
def gcmSeal (key nonce pt : List Nat) : List Nat :=
  let c := gcmCtr key (gcmJ0 nonce) pt
  c ++ natToBytesBE 16 (gcmTagN key nonce c)

/-- GCM Open with no AAD: fails if the input is shorter than the tag or the
recomputed tag differs; otherwise returns the CTR decryption. -/
def gcmOpen (key nonce ct : List Nat) : Option (List Nat) :=
  if ct.length < 16 then none
  else
    let c := ct.take (ct.length - 16)
    let tag := ct.drop (ct.length - 16)
    if natToBytesBE 16 (gcmTagN key nonce c) = tag then some (gcmCtr key (gcmJ0 nonce) c)
    else none

/- ===== Envelope encryption (crypto/envelope.go) ===== -/

/-- Envelope holds the AES key bytes and the HMAC secret bytes. -/
structure Envelope where
  key : List Nat
  hmacSecret : List Nat
deriving DecidableEq, Repr

/-- NewEnvelope decodes the hex key and requires exactly 32 bytes; the HMAC
secret is taken as its raw bytes with no validation. -/
def NewEnvelope (hexKey : String) (hmacSecret : String) : Except String Envelope :=
  match hexDecode hexKey with
  | none => .error "invalid hex key"
  | some key =>
    if key.length ≠ 32 then .error "key must be 256 bits (32 bytes)"
    else .ok { key := key, hmacSecret := strBytes hmacSecret }

/-- Encrypt seals the plaintext with AES-256-GCM and returns the nonce
prepended to the sealed output. The 12 random nonce bytes drawn from the
system reader are passed explicitly. The cipher constructor rejects key
sizes other than the 32 bytes an Envelope is built with. -/
def Envelope.Encrypt (e : Envelope) (nonce plaintext : List Nat) : Except String (List Nat) :=
  if e.key.length ≠ 32 then .error "failed to create cipher"
  else .ok (nonce ++ gcmSeal e.key nonce plaintext)

/-- Decrypt splits the first 12 bytes as the nonce and opens the remainder;
it fails if the blob is shorter than the nonce or authentication fails. -/
def Envelope.Decrypt (e : Envelope) (ciphertext : List Nat) : Except String (List Nat) :=
  if e.key.length ≠ 32 then .error "failed to create cipher"
  else if ciphertext.length < 12 then .error "ciphertext too short"
  else
    match gcmOpen e.key (ciphertext.take 12) (ciphertext.drop 12) with
    | some plaintext => .ok plaintext
    | none => .error "decryption failed"

/-- SignMetadata returns the lowercase hex HMAC-SHA256 of the metadata text
under the configured secret. -/
def Envelope.SignMetadata (e : Envelope) (metadata : String) : String :=
  hexEncode (hmacSha256 e.hmacSecret (strBytes metadata))

/-- VerifyMetadata recomputes the signature and compares byte sequences, as
the constant-time comparison does. -/
def Envelope.VerifyMetadata (e : Envelope) (metadata signature : String) : Bool :=
  strBytes (e.SignMetadata metadata) == strBytes signature

/- ===== Storage reference and S3 backend (storage package) ===== -/

/-- Reference is the structured descriptor left in the span after
offloading, with the JSON field names uri, checksum, encrypted, size_bytes. -/
structure Reference where
  URI : String
  Checksum : String
  Encrypted : Bool
  SizeBytes : Nat
deriving DecidableEq, Repr

/-- S3Config holds the configuration for S3 backend creation. -/
structure S3Config where
  Endpoint : String
  Bucket : String
  Prefix : String
  Region : String
  AccessKey : String
  SecretKey : String
  UseSSL : Bool

/-- The object-store medium seen over HTTP: the bytes stored at each request
URL, with the URL taken as its byte sequence. A missing entry stands for any
failed GET (transport failure or status at least 300). -/
def S3Medium : Type := List Nat → Option (List Nat)

/-- S3Backend stores vault content in S3-compatible object storage. The
source field named with the Lean keyword for a key prefix is rendered here
as keyPrefix; the HTTP client and its 30-second timeout carry no data and
are not modeled. -/
structure S3Backend where
  endpoint : String
  bucket : String
  keyPrefix : String
  accessKey : String
  secretKey : String
  useSSL : Bool

/-- NewS3Backend fails exactly when the bucket is empty. -/
def NewS3Backend (cfg : S3Config) : Except String S3Backend :=
  if cfg.Bucket = "" then .error "s3 bucket is required"
  else .ok { endpoint := cfg.Endpoint, bucket := cfg.Bucket, keyPrefix := cfg.Prefix,
             accessKey := cfg.AccessKey, secretKey := cfg.SecretKey, useSSL := cfg.UseSSL }

/-- URL scheme chosen from the TLS flag. -/
def s3Scheme (s : S3Backend) : String := if s.useSSL then "https" else "http"

/-- Object key: prefix then traceID/spanID/attrKey. -/
def S3Backend.objectKey (s : S3Backend) (traceID spanID attrKey : String) : String :=
  s.keyPrefix ++ traceID ++ "/" ++ spanID ++ "/" ++ attrKey

/-- Bytes of the URL a Store issues its PUT against. -/
def S3Backend.putUrl (s : S3Backend) (key : String) : List Nat :=
  strBytes (s3Scheme s ++ "://" ++ s.endpoint ++ "/" ++ s.bucket ++ "/" ++ key)

/-- Store writes data to the object store and returns the Reference. This
embeds the successful PUT path (status below 300): on a transport failure
the source returns an error and no Reference, which no claim here touches. -/
def S3Backend.Store (s : S3Backend) (m : S3Medium) (traceID spanID attrKey : String)
    (data : List Nat) : S3Medium × Reference :=
  let checksum := hexEncode (sha256 data)
  let key := s.objectKey traceID spanID attrKey
  let url := s.putUrl key
  let m' : S3Medium := fun u => if u = url then some data else m u
  (m', { URI := "promptvault://s3/" ++ s.bucket ++ "/" ++ key,
         Checksum := checksum, Encrypted := false, SizeBytes := data.length })

/-- Result of a Retrieve call: returned bytes, a returned error, or a
runtime panic of the process. -/
inductive RetrieveResult where
  | ok (data : List Nat)
  | error (msg : String)
  | panicked
deriving DecidableEq, Repr

/-- Bytes of the URL Retrieve issues its GET against: the scheme, endpoint
and the reference URI with its first 17 bytes cut off. -/
def S3Backend.getUrl (s : S3Backend) (ref : Reference) : List Nat :=
  strBytes (s3Scheme s ++ "://" ++ s.endpoint ++ "/") ++ (strBytes ref.URI).drop 17

/-- Retrieve slices the URI past the 17-byte scheme-and-host prefix without
checking its length first, so a URI shorter than 17 bytes makes the slice
expression trap at run time (modeled as panicked). Otherwise it fetches the
URL and fails unless the SHA-256 digest of the fetched bytes equals the
reference checksum. -/
def S3Backend.Retrieve (s : S3Backend) (m : S3Medium) (ref : Reference) : RetrieveResult :=
  if (strBytes ref.URI).length < 17 then .panicked
  else
    match m (s.getUrl ref) with
    | none => .error "S3 GET failed"
    | some data =>
      if hexEncode (sha256 data) = ref.Checksum then .ok data
      else .error ("checksum mismatch: expected " ++ ref.Checksum ++ ", got " ++ hexEncode (sha256 data))

/- ===== Processor per-attribute offload (processSpan body) ===== -/

/-- The body of the attribute-range closure in processSpan, for one span
attribute k with string value val: skip attributes outside the key set or
below the size threshold, encrypt first when an envelope is configured
(skipping the attribute if encryption fails), store through the backend,
and mark the returned Reference encrypted when an envelope is configured.
Returns none when the attribute is not offloaded. -/
def processSpanAttr (envelope : Option Envelope) (nonce : List Nat) (backend : S3Backend)
    (m : S3Medium) (keySet : String → Bool) (sizeThreshold : Nat)
    (traceID spanID k : String) (val : String) : Option (S3Medium × Reference) :=
  if !keySet k then none
  else if (strBytes val).length < sizeThreshold then none
  else
    let data := strBytes val
    match envelope with
    | none => some (backend.Store m traceID spanID k data)
    | some e =>
      match e.Encrypt nonce data with
      | .error _ => none
      | .ok encrypted =>
        let res := backend.Store m traceID spanID k encrypted
        some (res.1, { res.2 with Encrypted := true })

/- ===== Concrete fixtures used by closed statements ===== -/

/-- A concrete object-store backend configuration. -/
def sampleBackend : S3Backend :=
  { endpoint := "localhost:9000", bucket := "vault", keyPrefix := "tenant/",
    accessKey := "", secretKey := "", useSSL := false }

/-- An empty object-store medium. -/
def sampleMedium : S3Medium := fun _ => none

/-- A concrete envelope with an all-zero 32-byte key. -/
def sampleEnvelope : Envelope := { key := List.replicate 32 0, hmacSecret := strBytes "secret" }

/-- A concrete 12-byte nonce. -/
def sampleNonce : List Nat := List.replicate 12 0

/-- A key set holding exactly one attribute key. -/
def sampleKeySet : String → Bool := fun a => a == "gen_ai.prompt"

/-- A concrete reference for retrieval statements. -/
def sampleRef : Reference :=
  { URI := "promptvault://s3/vault/tenant/t1/s1/gen_ai.prompt", Checksum := "deadbeef",
    Encrypted := false, SizeBytes := 2 }

/-- A medium holding bytes at exactly the URL sampleRef resolves to. -/
def sampleMediumWithRef : S3Medium :=
  fun u => if u = sampleBackend.getUrl sampleRef then some [1, 2] else none

/- ===== Supporting lemmas ===== -/

theorem natToBytesBE_length (w n : Nat) : (natToBytesBE w n).length = w := by
  induction w generalizing n with
  | zero => rfl
  | succ w ih => simp [natToBytesBE, ih]

theorem strBytes_append (a b : String) : strBytes (a ++ b) = strBytes a ++ strBytes b := by
  simp [strBytes, String.toUTF8, String.data_append, List.flatMap_append]

theorem gcmKeystream_length (key : List Nat) (j0 n : Nat) : (gcmKeystream key j0 n).length = n := by
  have hge : n ≤ 16 * ((n + 15) / 16) := by
    have h1 := Nat.div_add_mod (n + 15) 16
    have h2 : (n + 15) % 16 < 16 := Nat.mod_lt _ (by norm_num)
    omega
  simp [gcmKeystream, List.length_flatMap, Function.comp_def, natToBytesBE_length,
    List.sum_replicate]
  omega

theorem gcmCtr_length (key : List Nat) (j0 : Nat) (d : List Nat) :
    (gcmCtr key j0 d).length = d.length := by
  simp [gcmCtr, List.length_zipWith, gcmKeystream_length]

theorem zipWith_xor_cancel : ∀ ks d : List Nat, ks.length = d.length →
    List.zipWith Nat.xor ks (List.zipWith Nat.xor ks d) = d := by
  intro ks
  induction ks with
  | nil =>
    intro d h
    have hd : d = [] := by
      cases d
      · rfl
      · simp at h
    subst hd
    simp
  | cons x ks ih =>
    intro d h
    cases d with
    | nil => simp
    | cons y d =>
      simp only [List.zipWith]
      have hx : Nat.xor x (Nat.xor x y) = y := by
        rw [show Nat.xor x (Nat.xor x y) = x ^^^ (x ^^^ y) from rfl, ← Nat.xor_assoc,
          Nat.xor_self, Nat.zero_xor]
      rw [hx, ih d (by simpa using h)]

theorem gcmCtr_gcmCtr (key : List Nat) (j0 : Nat) (d : List Nat) :
    gcmCtr key j0 (gcmCtr key j0 d) = d := by
  unfold gcmCtr
  rw [show (List.zipWith Nat.xor (gcmKeystream key j0 d.length) d).length = d.length by
    simp [List.length_zipWith, gcmKeystream_length]]
  exact zipWith_xor_cancel _ _ (by simp [gcmKeystream_length])

theorem gcmSeal_length (key nonce pt : List Nat) :
    (gcmSeal key nonce pt).length = pt.length + 16 := by
  simp [gcmSeal, gcmCtr_length, natToBytesBE_length]

theorem gcmOpen_gcmSeal (key nonce pt : List Nat) :
    gcmOpen key nonce (gcmSeal key nonce pt) = some pt := by
  unfold gcmOpen gcmSeal
  have hc := gcmCtr_length key (gcmJ0 nonce) pt
  have ht := natToBytesBE_length 16 (gcmTagN key nonce (gcmCtr key (gcmJ0 nonce) pt))
  rw [if_neg (by simp [List.length_append, ht])]
  have hsub : (gcmCtr key (gcmJ0 nonce) pt ++
      natToBytesBE 16 (gcmTagN key nonce (gcmCtr key (gcmJ0 nonce) pt))).length - 16 =
      (gcmCtr key (gcmJ0 nonce) pt).length := by
    simp [List.length_append, ht]
  rw [hsub, List.take_left, List.drop_left, if_pos rfl, gcmCtr_gcmCtr]

/- ===== Validation of the primitives against published test vectors ===== -/

/-- FIPS 197 appendix C.3 known-answer test for AES-256. -/
theorem aes256_fips197_vector :
    hexEncode (aesEncryptBlock (List.range 32)
      [0x00, 0x11, 0x22, 0x33, 0x44, 0x55, 0x66, 0x77,
       0x88, 0x99, 0xaa, 0xbb, 0xcc, 0xdd, 0xee, 0xff]) =
      "8ea2b7ca516745bfeafc49904b496089" := by decide

/-- NIST AES-256-GCM test vector with zero key, zero nonce and empty input. -/
theorem gcm_nist_vector :
    hexEncode (gcmSeal (List.replicate 32 0) (List.replicate 12 0) []) =
      "530f8afbc74536b9a963b4f1c4cb738b" := by decide

/-- FIPS 180-4 known-answer test for SHA-256. -/
theorem sha256_fips_vector :
    sha256hex (strBytes "abc") =
      "ba7816bf8f01cfea414140de5dae2223b00361a396177a9cb410ff61f20015ad" := by decide

/-- RFC 4231 test case 1 for HMAC-SHA256. -/
theorem hmac_rfc4231_vector :
    hexEncode (hmacSha256 (List.replicate 20 0x0b) (strBytes "Hi There")) =
      "b0344c61d8db38535ca8afceaf0bf12b881dc200c9833da726e9376c2e32cff7" := by decide

/- ===== Claim theorems ===== -/

/-- C3 counterexample: at a concrete successful Store with bucket vault and
prefix tenant/, the returned uri does not carry the vault scheme token the
claim states; the source formats the uri with the promptvault scheme. -/
theorem C3_counterexample :
    ¬ (((sampleBackend.Store sampleMedium "t1" "s1" "gen_ai.prompt" [1, 2]).2).URI =
      "vault://s3/" ++ sampleBackend.bucket ++ "/" ++
        (sampleBackend.keyPrefix ++ "t1" ++ "/" ++ "s1" ++ "/" ++ "gen_ai.prompt")) := by
  decide

/-- C3 amended: for every successful Store on the object-store backend the
returned uri equals the promptvault scheme token followed by s3, the bucket,
and the key built as prefix, traceID, spanID and attrKey joined by slashes. -/
theorem C3_uri_format (s : S3Backend) (m : S3Medium) (t sp k : String) (data : List Nat) :
    ((s.Store m t sp k data).2).URI =
      "promptvault://s3/" ++ s.bucket ++ "/" ++ (s.keyPrefix ++ t ++ "/" ++ sp ++ "/" ++ k) := rfl

/-- C5: on every Retrieve whose GET fetches bytes d, the backend recomputes
the SHA-256 digest of d and compares it with the reference checksum: on a
mismatch it returns an integrity error and no bytes, and on a match it
returns exactly d. -/
theorem C5_retrieve_verifies_checksum (s : S3Backend) (m : S3Medium) (ref : Reference)
    (d : List Nat) (hlen : 17 ≤ (strBytes ref.URI).length)
    (hfetch : m (s.getUrl ref) = some d) :
    s.Retrieve m ref =
      if hexEncode (sha256 d) = ref.Checksum then .ok d
      else .error ("checksum mismatch: expected " ++ ref.Checksum ++ ", got " ++
        hexEncode (sha256 d)) := by
  unfold S3Backend.Retrieve
  rw [if_neg (by omega), hfetch]

/-- C5 witness at a concrete backend, medium, reference and fetched bytes. -/
theorem C5_witness :
    sampleBackend.Retrieve sampleMediumWithRef sampleRef =
      if hexEncode (sha256 [1, 2]) = sampleRef.Checksum then .ok [1, 2]
      else .error ("checksum mismatch: expected " ++ sampleRef.Checksum ++ ", got " ++
        hexEncode (sha256 [1, 2])) :=
  C5_retrieve_verifies_checksum sampleBackend sampleMediumWithRef sampleRef [1, 2]
    (by decide) (by simp [sampleMediumWithRef])

/-- C9: verifying a text against the signature produced for that text on the
same envelope always succeeds, for every secret and every text. -/
theorem C9_verify_sign (e : Envelope) (text : String) :
    e.VerifyMetadata text (e.SignMetadata text) = true := by
  simp [Envelope.VerifyMetadata]

/-- C10: every successful Encrypt of a plaintext returns a blob exactly 28
bytes longer than the plaintext: a 12-byte nonce prepended to the GCM
output, which is the plaintext length plus a 16-byte tag. -/
theorem C10_encrypt_length (e : Envelope) (nonce pt c : List Nat)
    (hn : nonce.length = 12) (henc : e.Encrypt nonce pt = .ok c) :
    c.length = pt.length + 28 := by
  unfold Envelope.Encrypt at henc
  by_cases hk : e.key.length = 32
  · rw [if_neg (by simp [hk])] at henc
    injection henc with h
    rw [← h, List.length_append, hn, gcmSeal_length]
    omega
  · rw [if_pos (by simp [hk])] at henc
    exact absurd henc (by simp)

/-- C10 witness: a concrete one-byte plaintext encrypts to 29 bytes. -/
theorem C10_witness :
    (sampleNonce ++ gcmSeal sampleEnvelope.key sampleNonce [7]).length = [7].length + 28 :=
  C10_encrypt_length sampleEnvelope sampleNonce [7] _ (by decide) rfl

/-- C8: for every envelope and non-empty plaintext, a successful Encrypt
followed by Decrypt on the same instance returns the original plaintext. -/
theorem C8_encrypt_decrypt_roundtrip (e : Envelope) (nonce pt c : List Nat)
    (hn : nonce.length = 12) (_hpt : pt ≠ []) (henc : e.Encrypt nonce pt = .ok c) :
    e.Decrypt c = .ok pt := by
  unfold Envelope.Encrypt at henc
  by_cases hk : e.key.length = 32
  · rw [if_neg (by simp [hk])] at henc
    injection henc with h
    rw [← h]
    unfold Envelope.Decrypt
    rw [if_neg (by simp [hk]), if_neg (by simp [List.length_append, hn]),
      List.take_left' hn, List.drop_left' hn, gcmOpen_gcmSeal]
  · rw [if_pos (by simp [hk])] at henc
    exact absurd henc (by simp)

/-- C8 witness: a concrete sealed one-byte plaintext decrypts back. -/
theorem C8_witness :
    sampleEnvelope.Decrypt (sampleNonce ++ gcmSeal sampleEnvelope.key sampleNonce [7]) =
      .ok [7] :=
  C8_encrypt_decrypt_roundtrip sampleEnvelope sampleNonce [7] _ (by decide) (by decide) rfl

/-- C6: Decrypt fails with the short-ciphertext error on every blob shorter
than the 12-byte nonce; on longer blobs it splits the first 12 bytes as the
nonce, and fails with the decryption error whenever the remainder is shorter
than the 16-byte tag or the recomputed tag differs from the trailing tag
(wrong key, corrupted ciphertext, or truncation); otherwise it returns the
CTR decryption of the remainder with no partial plaintext on any failure. -/
theorem C6_decrypt_failure_modes (e : Envelope) (blob : List Nat) (hk : e.key.length = 32) :
    (blob.length < 12 → e.Decrypt blob = .error "ciphertext too short") ∧
    (12 ≤ blob.length →
      ((blob.drop 12).length < 16 ∨
          natToBytesBE 16 (gcmTagN e.key (blob.take 12)
            ((blob.drop 12).take ((blob.drop 12).length - 16))) ≠
            (blob.drop 12).drop ((blob.drop 12).length - 16) →
        e.Decrypt blob = .error "decryption failed") ∧
      (∀ pt, gcmOpen e.key (blob.take 12) (blob.drop 12) = some pt →
        e.Decrypt blob = .ok pt ∧
          pt = gcmCtr e.key (gcmJ0 (blob.take 12))
            ((blob.drop 12).take ((blob.drop 12).length - 16)))) := by
  refine ⟨fun hshort => ?_, fun hge => ⟨fun hfail => ?_, fun pt hsome => ?_⟩⟩
  · unfold Envelope.Decrypt
    rw [if_neg (by simp [hk]), if_pos hshort]
  · unfold Envelope.Decrypt
    rw [if_neg (by simp [hk]), if_neg (by omega)]
    have hnone : gcmOpen e.key (blob.take 12) (blob.drop 12) = none := by
      unfold gcmOpen
      rcases hfail with hlt | htag
      · rw [if_pos hlt]
      · by_cases hlt : (blob.drop 12).length < 16
        · rw [if_pos hlt]
        · rw [if_neg hlt, if_neg htag]
    rw [hnone]
  · have hparts : ¬ (blob.drop 12).length < 16 ∧
        pt = gcmCtr e.key (gcmJ0 (blob.take 12))
          ((blob.drop 12).take ((blob.drop 12).length - 16)) := by
      unfold gcmOpen at hsome
      by_cases hlt : (blob.drop 12).length < 16
      · rw [if_pos hlt] at hsome
        exact absurd hsome (by simp)
      · rw [if_neg hlt] at hsome
        by_cases htag : natToBytesBE 16 (gcmTagN e.key (blob.take 12)
            ((blob.drop 12).take ((blob.drop 12).length - 16))) =
            (blob.drop 12).drop ((blob.drop 12).length - 16)
        · rw [if_pos htag] at hsome
          injection hsome with h
          exact ⟨hlt, h.symm⟩
        · rw [if_neg htag] at hsome
          exact absurd hsome (by simp)
    refine ⟨?_, hparts.2⟩
    unfold Envelope.Decrypt
    rw [if_neg (by simp [hk]), if_neg (by omega), hsome]

/-- C6 witness: a one-byte blob is shorter than the nonce and fails. -/
theorem C6_witness :
    sampleEnvelope.Decrypt [0] = .error "ciphertext too short" :=
  (C6_decrypt_failure_modes sampleEnvelope [0] (by decide)).1 (by decide)

/-- Hex decoding succeeds on every even-length list of valid hex digits and
yields one byte per digit pair. -/
theorem hexDecodeList_allValid : ∀ l : List Char, (∀ c ∈ l, (hexCharVal c).isSome) →
    l.length % 2 = 0 → ∃ bs, hexDecodeList l = some bs ∧ bs.length = l.length / 2
  | [] => fun _ _ => ⟨[], rfl, rfl⟩
  | [_] => fun _ h => by simp at h
  | c1 :: c2 :: rest => fun hall heven => by
    obtain ⟨v1, hv1⟩ := Option.isSome_iff_exists.mp (hall c1 (by simp))
    obtain ⟨v2, hv2⟩ := Option.isSome_iff_exists.mp (hall c2 (by simp))
    obtain ⟨bs, hbs, hlen⟩ := hexDecodeList_allValid rest
      (fun c hc => hall c (by simp [hc]))
      (by simp only [List.length_cons] at heven ⊢; omega)
    refine ⟨(v1 * 16 + v2) :: bs, ?_, ?_⟩
    · unfold hexDecodeList
      rw [hv1, hv2, hbs]
    · simp only [List.length_cons, hlen]
      omega

/-- C7: envelope construction fails exactly when the hex key does not decode
or decodes to other than 32 bytes, and succeeds on every 64-character string
of hex digits, whatever the HMAC secret is. -/
theorem C7_newEnvelope_validation (hexKey secret : String) :
    ((∃ env, NewEnvelope hexKey secret = .ok env) ↔
      ∃ k, hexDecode hexKey = some k ∧ k.length = 32) ∧
    (hexKey.length = 64 → (∀ c ∈ hexKey.data, (hexCharVal c).isSome) →
      ∃ env, NewEnvelope hexKey secret = .ok env) := by
  constructor
  · unfold NewEnvelope
    cases hd : hexDecode hexKey with
    | none => simp
    | some k =>
      by_cases hk : k.length = 32
      · simp [hk]
      · simp [hk]
  · intro h64 hall
    have hlen : hexKey.data.length = 64 := h64
    obtain ⟨bs, hbs, hbslen⟩ := hexDecodeList_allValid hexKey.data hall (by omega)
    have h32 : bs.length = 32 := by omega
    refine ⟨{ key := bs, hmacSecret := strBytes secret }, ?_⟩
    simp [NewEnvelope, hexDecode, hbs, h32]

/-- C7 witness: the 64-hex-character test key constructs an envelope. -/
theorem C7_witness :
    ∃ env, NewEnvelope "0123456789abcdef0123456789abcdef0123456789abcdef0123456789abcdef"
      "test-hmac-secret" = .ok env :=
  (C7_newEnvelope_validation _ _).2 (by decide) (by decide)

/-- The URI a Store returns keeps at least the 17 bytes of its scheme prefix
under any checksum mutation. -/
theorem store_ref_uri_length (s : S3Backend) (m : S3Medium) (t sp k : String)
    (data : List Nat) (c' : String) :
    17 ≤ (strBytes ({ (s.Store m t sp k data).2 with Checksum := c' }).URI).length := by
  have h17 : (strBytes "promptvault://s3/").length = 17 := by decide
  simp [S3Backend.Store, strBytes_append, List.length_append, h17]

/-- The GET URL derived from a stored Reference, with any checksum mutation,
is the URL the Store put its bytes to. -/
theorem store_ref_getUrl (s : S3Backend) (m : S3Medium) (t sp k : String)
    (data : List Nat) (c' : String) :
    s.getUrl { (s.Store m t sp k data).2 with Checksum := c' } =
      s.putUrl (s.objectKey t sp k) := by
  have h17 : (strBytes "promptvault://s3/").length = 17 := by decide
  simp only [S3Backend.Store, S3Backend.getUrl, S3Backend.putUrl, S3Backend.objectKey]
  simp only [strBytes_append, List.append_assoc]
  rw [List.drop_left' h17]

/-- The medium a Store returns holds the stored bytes at the PUT URL. -/
theorem store_medium_at_putUrl (s : S3Backend) (m : S3Medium) (t sp k : String)
    (data : List Nat) :
    (s.Store m t sp k data).1 (s.putUrl (s.objectKey t sp k)) = some data := by
  simp [S3Backend.Store]

/-- C4 counterexample: after a concrete Store, mutating the uri to the empty
string makes Retrieve trap on the out-of-range slice of the 17-byte scheme
prefix instead of failing with a returned error, so a mutated uri does not
deterministically fail with an error and can crash the process. -/
theorem C4_counterexample :
    sampleBackend.Retrieve (sampleBackend.Store sampleMedium "t1" "s1" "gen_ai.prompt" [1, 2]).1
      { (sampleBackend.Store sampleMedium "t1" "s1" "gen_ai.prompt" [1, 2]).2 with URI := "" } =
      .panicked := by decide

/-- C4 amended: mutating the checksum of a stored Reference to any value
other than the digest of the stored bytes makes Retrieve deterministically
fail with the integrity error and return no data; mutating the uri is not
covered in general, since a uri shorter than the 17-byte scheme prefix
makes Retrieve trap, and a mutated uri resolving to bytes whose digest
matches the checksum can even make Retrieve succeed. -/
theorem C4_checksum_mutation_fails (s : S3Backend) (m : S3Medium) (t sp k : String)
    (data : List Nat) (c' : String) (hc : c' ≠ hexEncode (sha256 data)) :
    s.Retrieve (s.Store m t sp k data).1
      { (s.Store m t sp k data).2 with Checksum := c' } =
      .error ("checksum mismatch: expected " ++ c' ++ ", got " ++
        hexEncode (sha256 data)) := by
  have hlen := store_ref_uri_length s m t sp k data c'
  have hurl := store_ref_getUrl s m t sp k data c'
  have hmed := store_medium_at_putUrl s m t sp k data
  unfold S3Backend.Retrieve
  rw [if_neg (by omega), hurl, hmed]
  simp only [S3Backend.Store]
  rw [if_neg (fun h => hc h.symm)]

/-- C4 witness: a concrete mutation of the checksum to deadbeef fails with
the integrity error. -/
theorem C4_witness :
    sampleBackend.Retrieve (sampleBackend.Store sampleMedium "t1" "s1" "gen_ai.prompt" [1, 2]).1
      { (sampleBackend.Store sampleMedium "t1" "s1" "gen_ai.prompt" [1, 2]).2 with
        Checksum := "deadbeef" } =
      .error ("checksum mismatch: expected " ++ "deadbeef" ++ ", got " ++
        hexEncode (sha256 [1, 2])) :=
  C4_checksum_mutation_fails sampleBackend sampleMedium "t1" "s1" "gen_ai.prompt" [1, 2]
    "deadbeef" (by decide)

set_option maxHeartbeats 4000000 in
/-- C1 counterexample: with envelope encryption enabled, a concrete offload
of the one-byte value a returns a Reference whose checksum is not the
SHA-256 digest of the plaintext: the processor encrypts before Store and
Store hashes the bytes it receives, so the checksum is the digest of the
ciphertext. -/
theorem C1_counterexample :
    ¬ ((processSpanAttr (some sampleEnvelope) sampleNonce sampleBackend sampleMedium
      sampleKeySet 0 "t1" "s1" "gen_ai.prompt" "a").map (fun r => r.2.Checksum) =
      some (hexEncode (sha256 (strBytes "a")))) := by decide

/-- C1 amended: the Reference checksum is always the lowercase hex SHA-256
digest of the data bytes handed to Store: the digest of the ciphertext
blob (nonce and sealed bytes) when envelope encryption is enabled, and the
digest of the plaintext only when it is not. -/
theorem C1_checksum_is_digest_of_stored_bytes (e : Envelope) (nonce : List Nat)
    (s : S3Backend) (m : S3Medium) (keySet : String → Bool) (thr : Nat)
    (t sp k val : String) (hks : keySet k = true)
    (hthr : ¬ (strBytes val).length < thr) (hkey : e.key.length = 32) :
    (processSpanAttr (some e) nonce s m keySet thr t sp k val).map (fun r => r.2.Checksum) =
      some (hexEncode (sha256 (nonce ++ gcmSeal e.key nonce (strBytes val)))) ∧
    (processSpanAttr none nonce s m keySet thr t sp k val).map (fun r => r.2.Checksum) =
      some (hexEncode (sha256 (strBytes val))) := by
  constructor
  · simp [processSpanAttr, Envelope.Encrypt, S3Backend.Store, hks, hthr, hkey]
  · simp [processSpanAttr, S3Backend.Store, hks, hthr]

/-- C1 witness at a concrete envelope, backend and attribute value. -/
theorem C1_witness :
    (processSpanAttr (some sampleEnvelope) sampleNonce sampleBackend sampleMedium
      sampleKeySet 0 "t1" "s1" "gen_ai.prompt" "a").map (fun r => r.2.Checksum) =
      some (hexEncode (sha256 (sampleNonce ++
        gcmSeal sampleEnvelope.key sampleNonce (strBytes "a")))) :=
  (C1_checksum_is_digest_of_stored_bytes sampleEnvelope sampleNonce sampleBackend
    sampleMedium sampleKeySet 0 "t1" "s1" "gen_ai.prompt" "a"
    (by decide) (by decide) (by decide)).1

/-- C2 counterexample: with envelope encryption enabled, a concrete offload
of the one-byte value a returns a Reference whose size_bytes is not the
plaintext length: Store records the length of the bytes it receives, which
is the ciphertext length. -/
theorem C2_counterexample :
    ¬ ((processSpanAttr (some sampleEnvelope) sampleNonce sampleBackend sampleMedium
      sampleKeySet 0 "t1" "s1" "gen_ai.prompt" "a").map (fun r => r.2.SizeBytes) =
      some (strBytes "a").length) := by decide

/-- C2 amended: the Reference size_bytes is always the byte length of the
data handed to Store: the plaintext length plus 28 (12-byte nonce and
16-byte tag) when envelope encryption is enabled, and the plaintext length
only when it is not. -/
theorem C2_size_is_stored_length (e : Envelope) (nonce : List Nat)
    (s : S3Backend) (m : S3Medium) (keySet : String → Bool) (thr : Nat)
    (t sp k val : String) (hks : keySet k = true)
    (hthr : ¬ (strBytes val).length < thr) (hkey : e.key.length = 32)
    (hn : nonce.length = 12) :
    (processSpanAttr (some e) nonce s m keySet thr t sp k val).map (fun r => r.2.SizeBytes) =
      some ((strBytes val).length + 28) ∧
    (processSpanAttr none nonce s m keySet thr t sp k val).map (fun r => r.2.SizeBytes) =
      some (strBytes val).length := by
  constructor
  · simp [processSpanAttr, Envelope.Encrypt, S3Backend.Store, hks, hthr, hkey,
      List.length_append, hn, gcmSeal_length]
    omega
  · simp [processSpanAttr, S3Backend.Store, hks, hthr]

/-- C2 witness at a concrete envelope, backend and attribute value. -/
theorem C2_witness :
    (processSpanAttr (some sampleEnvelope) sampleNonce sampleBackend sampleMedium
      sampleKeySet 0 "t1" "s1" "gen_ai.prompt" "a").map (fun r => r.2.SizeBytes) =
      some ((strBytes "a").length + 28) :=
  (C2_size_is_stored_length sampleEnvelope sampleNonce sampleBackend sampleMedium
    sampleKeySet 0 "t1" "s1" "gen_ai.prompt" "a"
    (by decide) (by decide) (by decide) (by decide)).1

end PromptVault
